import Mathlib

/-!
Verification development for the CupCoffee3D procedural-animation core.

The per-frame simulation and pointer-interaction routines of the repository
(particle fountain, liquid surface wave, vertical-drop physics, pointer-drag
controller, steam columns, lamp head constraint solver) are shallowly embedded
below.  JavaScript number arithmetic is modelled by real arithmetic; calls to
Math.random() are modelled as explicit numeric inputs in [0, 1); the renderer
(camera projection, pointer events, clock) is an external collaborator, so
pointer rays and elapsed times are inputs.
-/

namespace CupCoffee

noncomputable section

open scoped Classical

/-- Linear interpolation, as three.js MathUtils.lerp(x, y, t) = x + (y - x) * t. -/
def lerp (x y t : ℝ) : ℝ := x + (y - x) * t

/-- Math.min(Math.max(v, lo), hi). -/
def clampR (v lo hi : ℝ) : ℝ := min (max v lo) hi

/-- Math.atan2(y, x), modelled as the argument of the complex number x + y*i. -/
def atan2 (y x : ℝ) : ℝ := Complex.arg (⟨x, y⟩ : Complex)

/-- Particle pool entry of CoffeeParticles: position (x, y, z), vertical speed, swirl phase. -/
structure Particle where
  x : ℝ
  y : ℝ
  z : ℝ
  speed : ℝ
  phase : ℝ

/-- Props of the CoffeeParticles component (CoffeeParticles.tsx lines 32-55).
The field sectorYMax embeds the source prop holding the height-fraction cap
for the sector reduction (its source name carries a Ratio suffix). -/
structure ParticleParams where
  count : ℕ
  spread : ℝ
  baseY : ℝ
  height : ℝ
  speedMin : ℝ
  speedMax : ℝ
  swirl : ℝ
  constrainInside : Bool
  cupInnerRadiusTop : ℝ
  cupInnerRadiusBottom : ℝ
  cupBottomY : ℝ
  rimY : ℝ
  innerMargin : ℝ
  wallEpsilon : ℝ
  sectorBoost : ℝ
  sectorYMax : ℝ
  angleBiasCenter : ℝ
  angleBiasWidth : ℝ
  angleBoost : ℝ

/-- The default props of CoffeeParticles (CoffeeParticles.tsx lines 33-54). -/
def defaultParams : ParticleParams :=
  ⟨400, 0.35, 0, 1.2, 0.2, 0.55, 0.32, true, 0.73, 0.59, -0.6, 0.6,
   0.025, 0.003, 0, 1, Real.pi / 4, Real.pi / 10, 0⟩

/-- Normalized height used by the containment rule:
Math.min(Math.max((y - cupBottomY) / Math.max(1e-6, rimY - cupBottomY), 0), 1). -/
def normHeight (P : ParticleParams) (y : ℝ) : ℝ :=
  clampR ((y - P.cupBottomY) / max 1e-6 (P.rimY - P.cupBottomY)) 0 1

/-- Allowed containment radius at normalized height ty for a particle at (x, z):
lerp(bottom, top, ty) - innerMargin - wallEpsilon, minus the sector reduction in
the x>0, z>0 quadrant below the height cap, minus the angular-lobe falloff
(CoffeeParticles.tsx lines 71-84, 136-154, 169-185; the three occurrences in
the source are textually identical). -/
def allowedRadius (P : ParticleParams) (x z ty : ℝ) : ℝ :=
  let a0 := lerp P.cupInnerRadiusBottom P.cupInnerRadiusTop ty - P.innerMargin - P.wallEpsilon
  let a1 := if x > 0 ∧ z > 0 ∧ ty ≤ P.sectorYMax then a0 - P.sectorBoost else a0
  if x > 0 ∧ z > 0 ∧ ty ≤ P.sectorYMax ∧ P.angleBoost > 0 then
    let d := |atan2 z x - P.angleBiasCenter|
    if d ≤ P.angleBiasWidth then a1 - P.angleBoost * (1 - d / max P.angleBiasWidth 1e-6)
    else a1
  else a1

/-- Radial clamp used when seeding and respawning: if sqrt(x*x+z*z) exceeds the
allowed radius, rescale x and z by allowedR / rr (CoffeeParticles.tsx lines
85-91 and 186-192; no epsilon guard on the denominator in these two sites). -/
def seedClamp (P : ParticleParams) (x z y : ℝ) : ℝ × ℝ :=
  let aR := allowedRadius P x z (normHeight P y)
  let rr := Real.sqrt (x * x + z * z)
  if rr > aR then (x * (aR / rr), z * (aR / rr)) else (x, z)

/-- Radial clamp of the per-frame containment step: scale = allowedR / Math.max(rr, 1e-6)
(CoffeeParticles.tsx lines 155-160). -/
def frameClamp (P : ParticleParams) (x z y : ℝ) : ℝ × ℝ :=
  let aR := allowedRadius P x z (normHeight P y)
  let rr := Real.sqrt (x * x + z * z)
  if rr > aR then (x * (aR / max rr 1e-6), z * (aR / max rr 1e-6)) else (x, z)

/-- One particle's worth of Math.random() draws, each expected in [0, 1). -/
structure Draws where
  uAngle : ℝ
  uRadius : ℝ
  uY : ℝ
  uSpeed : ℝ
  uPhase : ℝ

/-- Seeding of one particle of the pool (CoffeeParticles.tsx lines 64-99):
uniform-by-area disc draw, y in [baseY, baseY + 0.12), containment clamp,
speed lerped over speedRange, random phase. -/
def seedParticle (P : ParticleParams) (d : Draws) : Particle :=
  let a := d.uAngle * Real.pi * 2
  let r := Real.sqrt d.uRadius * P.spread
  let x := Real.cos a * r
  let z := Real.sin a * r
  let y := P.baseY + d.uY * 0.12
  let xz := if P.constrainInside then seedClamp P x z y else (x, z)
  ⟨xz.1, y, xz.2, lerp P.speedMin P.speedMax d.uSpeed, d.uPhase * Real.pi * 2⟩

/-- Per-frame update of one particle (CoffeeParticles.tsx lines 128-198):
integrate y, apply the sinusoidal swirl to x and z, clamp radially while below
rimY + 0.005, then respawn (fresh draws, y in [baseY, baseY + 0.1), containment
clamp at the new height) once y exceeds baseY + height. -/
def updateParticle (P : ParticleParams) (t dt : ℝ) (d : Draws) (p : Particle) : Particle :=
  let y1 := p.y + p.speed * dt
  let x1 := p.x + Real.sin (t * 0.85 + p.phase) * P.swirl * 0.035
  let z1 := p.z + Real.cos (t * 0.72 + p.phase) * P.swirl * 0.035
  let xz := if P.constrainInside = true ∧ y1 < P.rimY + 0.005 then frameClamp P x1 z1 y1
            else (x1, z1)
  if y1 > P.baseY + P.height then
    let y2 := P.baseY + d.uY * 0.1
    let a := d.uAngle * Real.pi * 2
    let r := Real.sqrt d.uRadius * P.spread
    let x := Real.cos a * r
    let z := Real.sin a * r
    let xz2 := if P.constrainInside then seedClamp P x z y2 else (x, z)
    ⟨xz2.1, y2, xz2.2, lerp P.speedMin P.speedMax d.uSpeed, d.uPhase * Real.pi * 2⟩
  else
    ⟨xz.1, y1, xz.2, p.speed, p.phase⟩

/-- The whole pool at construction (the posAttr useMemo loop). -/
def seedPool (P : ParticleParams) (ds : ℕ → Draws) : List Particle :=
  (List.range P.count).map (fun i => seedParticle P (ds i))

/-- One useFrame tick over the whole pool; ds supplies each particle's
potential respawn draws for this frame. -/
def stepPool (P : ParticleParams) (t dt : ℝ) (ds : ℕ → Draws) (pool : List Particle) :
    List Particle :=
  pool.mapIdx (fun i p => updateParticle P t dt (ds i) p)

/-- Horizontal distance of a particle from the vertical axis. -/
def radialDist (p : Particle) : ℝ := Real.sqrt (p.x * p.x + p.z * p.z)

/-- Scene gravity constant of the cup physics (CoffeeCup.tsx line 92). -/
def gravity : ℝ := 9.8

/-- Support-rectangle test isOverDesk (CoffeeCup.tsx lines 99-108). -/
def isOverDesk (deskEnabledFlag : Bool) (cx cz halfW halfD edgeMargin x z : ℝ) : Prop :=
  deskEnabledFlag = true ∧
  |x - cx| ≤ max 0 (halfW - edgeMargin) ∧ |z - cz| ≤ max 0 (halfD - edgeMargin)

/-- Rest height of the fallen cup: floorY plus the scaled half height
(floorStop = floorY + cupHalfHeightScaled, cupHalfHeightScaled = 0.6 * scale). -/
def floorStopOf (floorY scale : ℝ) : ℝ := floorY + 0.6 * scale

/-- One physics frame acting on the vertical state (y, yVel) of the cup
(CoffeeCup.tsx lines 236-261): while dragging or resting over the desk the
height is pinned to the desk top and the velocity reset; otherwise constant
downward acceleration is integrated into velocity, velocity into y, and the
result is clamped at floorStop with the velocity reset on contact. -/
def physicsStep (dragging overDesk : Bool) (topY floorStop dt : ℝ) (s : ℝ × ℝ) : ℝ × ℝ :=
  match dragging, overDesk with
  | true, true => (topY, 0)
  | true, false => s
  | false, true => (topY, 0)
  | false, false =>
    let v1 := s.2 - gravity * dt
    let y1 := s.1 + v1 * dt
    if y1 < floorStop then (floorStop, 0) else (y1, v1)

/-- Iterated frames with the cup neither dragged nor over the desk, starting
from height y0 with zero vertical velocity.  overDesk stays constant across
frames because the physics block never changes x or z. -/
def physicsIter (topY floorStop dt y0 : ℝ) : ℕ → ℝ × ℝ
  | 0 => (y0, 0)
  | n + 1 => physicsStep false false topY floorStop dt (physicsIter topY floorStop dt y0 n)

/-- Vertex of the liquid lid mesh. -/
structure Vtx where
  x : ℝ
  y : ℝ
  z : ℝ

/-- Wave kernel of the liquid lid animation (CoffeeCup.tsx lines 277-280):
sin(r * 10 - time * 2.2) * 0.003 + sin((x + z + time) * 3) * 0.002 with
r = sqrt(x * x + z * z), evaluated at the vertex's live x and z. -/
def waveAt (x z time : ℝ) : ℝ :=
  Real.sin (Real.sqrt (x * x + z * z) * 10 - time * 2.2) * 0.003 +
  Real.sin ((x + z + time) * 3) * 0.002

/-- Liquid-geometry state: the lazily captured rest positions
(originalPositions, none before the first frame) and the live vertex buffer. -/
structure LiquidState where
  base : Option (List Vtx)
  arr : List Vtx

/-- One liquid frame (CoffeeCup.tsx lines 262-287): capture the rest positions
on the first run, then for every vertex whose rest height is strictly positive
write restHeight + wave at the live x/z, leaving every other coordinate and
every vertex with nonpositive rest height untouched. -/
def liquidFrame (time : ℝ) (st : LiquidState) : LiquidState :=
  let base := st.base.getD st.arr
  ⟨some base,
   List.zipWith (fun b a => ⟨a.x, if b.y > 0 then b.y + waveAt a.x a.z time else a.y, a.z⟩)
     base st.arr⟩

/-- A sequence of liquid frames at the given times, in order. -/
def liquidRun (ts : List ℝ) (st : LiquidState) : LiquidState :=
  ts.foldl (fun s time => liquidFrame time s) st

/-- Invariant tying a liquid state to the initial vertex list v: either the
lazy capture has not yet happened and the buffer is still v, or the rest
buffer is exactly v, the live buffer has the same length, x and z never
changed, and vertices with nonpositive rest height still carry their rest
height. -/
def GoodLiquid (v : List Vtx) (st : LiquidState) : Prop :=
  (st.base = none ∧ st.arr = v) ∨
  (st.base = some v ∧ st.arr.length = v.length ∧
    ∀ (i : ℕ) (h : i < v.length) (hh : i < st.arr.length),
      (st.arr.get ⟨i, hh⟩).x = (v.get ⟨i, h⟩).x ∧
      (st.arr.get ⟨i, hh⟩).z = (v.get ⟨i, h⟩).z ∧
      ((v.get ⟨i, h⟩).y ≤ 0 → (st.arr.get ⟨i, hh⟩).y = (v.get ⟨i, h⟩).y))

/-- 3D vector, as three.js Vector3. -/
@[ext] structure V3 where
  x : ℝ
  y : ℝ
  z : ℝ

/-- Vector3.add. -/
def vadd (a b : V3) : V3 := ⟨a.x + b.x, a.y + b.y, a.z + b.z⟩

/-- Vector3.sub. -/
def vsub (a b : V3) : V3 := ⟨a.x - b.x, a.y - b.y, a.z - b.z⟩

/-- Vector3.dot. -/
def vdot (a b : V3) : ℝ := a.x * b.x + a.y * b.y + a.z * b.z

/-- Vector3.multiplyScalar. -/
def vsmul (k : ℝ) (a : V3) : V3 := ⟨k * a.x, k * a.y, k * a.z⟩

/-- Vector3.distanceTo. -/
def vdist (a b : V3) : ℝ :=
  Real.sqrt ((a.x - b.x) * (a.x - b.x) + (a.y - b.y) * (a.y - b.y) + (a.z - b.z) * (a.z - b.z))

/-- three.js Plane with equation normal dot p + constant = 0. -/
structure Plane3 where
  normal : V3
  constant : ℝ

/-- three.js Ray.distanceToPlane: none when the ray is parallel and off the
plane, or when the intersection parameter is negative (plane behind the ray). -/
def rayDistanceToPlane (origin dir : V3) (pl : Plane3) : Option ℝ :=
  let denom := vdot pl.normal dir
  if denom = 0 then
    (if vdot pl.normal origin + pl.constant = 0 then some 0 else none)
  else
    let t := -(vdot origin pl.normal + pl.constant) / denom
    if 0 ≤ t then some t else none

/-- three.js Ray.intersectPlane: the point origin + dir * t at the plane
parameter, when it exists. -/
def intersectPlane (origin dir : V3) (pl : Plane3) : Option V3 :=
  (rayDistanceToPlane origin dir pl).map (fun t => vadd origin (vsmul t dir))

/-- Drag-relevant props of the CoffeeCup component. -/
structure CupCfg where
  draggable : Bool
  scale : ℝ
  deskCenter : Option (ℝ × ℝ)
  deskTopY : Option ℝ
  deskSize : Option (ℝ × ℝ)
  edgeMargin : ℝ
  dragPlaneY : Option ℝ

/-- deskEnabled (CoffeeCup.tsx line 95): all three desk props present. -/
def deskEnabled (cfg : CupCfg) : Bool :=
  cfg.deskCenter.isSome && cfg.deskTopY.isSome && cfg.deskSize.isSome

/-- The horizontal plane used by the cup's computePlanePoint (CoffeeCup.tsx
lines 141-148): y = dragPlaneY when supplied (constant = -dragPlaneY), else
y = 0. -/
def cupDragPlane (cfg : CupCfg) : Plane3 :=
  match cfg.dragPlaneY with
  | some c => ⟨⟨0, 1, 0⟩, -c⟩
  | none => ⟨⟨0, 1, 0⟩, 0⟩

/-- Height of the cup's drag plane. -/
def cupPlaneY (cfg : CupCfg) : ℝ :=
  match cfg.dragPlaneY with
  | some c => c
  | none => 0

/-- computePlanePoint for the cup (CoffeeCup.tsx lines 135-155): the pointer
ray, delivered by the renderer's camera projection, is intersected with the
horizontal drag plane. -/
def computePlanePoint (cfg : CupCfg) (origin dir : V3) : Option V3 :=
  intersectPlane origin dir (cupDragPlane cfg)

/-- Mutable drag state of the cup: the dragging flag, the group position and
the stored pointer-down offset (null until first captured). -/
structure CupState where
  dragging : Bool
  pos : V3
  dragOffset : Option V3

/-- onPointerDown of the cup (CoffeeCup.tsx lines 157-169): bail when not
draggable, else start the session, fire onDragChange(true), and overwrite the
stored offset only when the plane projection succeeds. -/
def cupPointerDown (cfg : CupCfg) (origin dir : V3) (st : CupState) : CupState × Option Bool :=
  if cfg.draggable = false then (st, none)
  else
    let off := match computePlanePoint cfg origin dir with
      | some p => some (vsub st.pos p)
      | none => st.dragOffset
    (⟨true, st.pos, off⟩, some true)

/-- Commit target of one cup move (CoffeeCup.tsx lines 197-213): projected
point plus offset, X/Z clamped to the desk rectangle (inset by edgeMargin)
when the desk is configured, and Y pinned to deskTopY + 0.6 * scale +
0.03 * scale when deskTopY is given, else kept at the current height. -/
def cupCommitPos (cfg : CupCfg) (curY : ℝ) (p : V3) : V3 :=
  let q :=
    match deskEnabled cfg, cfg.deskCenter, cfg.deskSize with
    | true, some c, some s =>
        (⟨clampR p.x (c.1 - (s.1 / 2 - cfg.edgeMargin)) (c.1 + (s.1 / 2 - cfg.edgeMargin)),
          p.y,
          clampR p.z (c.2 - (s.2 / 2 - cfg.edgeMargin)) (c.2 + (s.2 / 2 - cfg.edgeMargin))⟩ : V3)
    | _, _, _ => p
  let yTop := match cfg.deskTopY with
    | some ty => ty + 0.6 * cfg.scale + 0.03 * cfg.scale
    | none => curY
  ⟨q.x, yTop, q.z⟩

/-- Global pointermove handler during a cup drag (CoffeeCup.tsx lines
193-215): a no-op without an active session, on a failed projection, or with
no stored offset; otherwise it commits the clamped target and reports it
through onPositionChange. -/
def cupHandleMove (cfg : CupCfg) (origin dir : V3) (st : CupState) : CupState × Option V3 :=
  if st.dragging = false then (st, none)
  else
    match computePlanePoint cfg origin dir with
    | none => (st, none)
    | some p =>
      match st.dragOffset with
      | none => (st, none)
      | some off =>
        let tgt := cupCommitPos cfg st.pos.y (vadd p off)
        (⟨st.dragging, tgt, st.dragOffset⟩, some tgt)

/-- Global pointerup handler of the cup (CoffeeCup.tsx lines 216-221): ends
the session and fires onDragChange(false); the stored offset is not cleared. -/
def cupHandleUp (st : CupState) : CupState × Option Bool :=
  if st.dragging = true then (⟨false, st.pos, st.dragOffset⟩, some false) else (st, none)

/-- The cup drag useEffect (CoffeeCup.tsx lines 186-228) returns before
installing the global pointermove/pointerup listeners unless draggable. -/
def cupDragListeners (cfg : CupCfg) : Bool := cfg.draggable

/-- Mutable drag state of the desk. -/
structure DeskState where
  dragging : Bool
  pos : V3
  dragOffset : Option V3

/-- Desk onPointerDown (part_005 lines 80-92), against the ground plane y=0. -/
def deskPointerDown (draggable : Bool) (origin dir : V3) (st : DeskState) :
    DeskState × Option Bool :=
  if draggable = false then (st, none)
  else
    let off := match intersectPlane origin dir ⟨⟨0, 1, 0⟩, 0⟩ with
      | some p => some (vsub st.pos p)
      | none => st.dragOffset
    (⟨true, st.pos, off⟩, some true)

/-- Desk pointermove handler (part_005 lines 109-120): projected point plus
offset, rescaled onto radius 4 when its horizontal length exceeds it, Y kept. -/
def deskHandleMove (origin dir : V3) (st : DeskState) : DeskState × Option V3 :=
  if st.dragging = false then (st, none)
  else
    match intersectPlane origin dir ⟨⟨0, 1, 0⟩, 0⟩ with
    | none => (st, none)
    | some p0 =>
      match st.dragOffset with
      | none => (st, none)
      | some off =>
        let p := vadd p0 off
        let len := Real.sqrt (p.x * p.x + p.z * p.z)
        let q := if len > 4.0 then vsmul (4.0 / len) p else p
        (⟨st.dragging, ⟨q.x, st.pos.y, q.z⟩, st.dragOffset⟩, some ⟨q.x, st.pos.y, q.z⟩)

/-- The desk drag useEffect (part_005 lines 103-133) installs its global
listeners only when draggable. -/
def deskDragListeners (draggable : Bool) : Bool := draggable

/-- Mutable drag state of the lamp group. -/
structure LampState where
  dragging : Bool
  pos : V3
  dragOffset : Option V3

/-- Lamp onPointerDown (part_006 lines 86-96), against the ground plane y=0. -/
def lampPointerDown (draggable : Bool) (origin dir : V3) (st : LampState) :
    LampState × Option Bool :=
  if draggable = false then (st, none)
  else
    let off := match intersectPlane origin dir ⟨⟨0, 1, 0⟩, 0⟩ with
      | some p => some (vsub st.pos p)
      | none => st.dragOffset
    (⟨true, st.pos, off⟩, some true)

/-- Lamp pointermove handler (part_006 lines 107-115): projected point plus
offset committed to X/Z, Y kept; no clamping. -/
def lampGroupHandleMove (origin dir : V3) (st : LampState) : LampState × Option V3 :=
  if st.dragging = false then (st, none)
  else
    match intersectPlane origin dir ⟨⟨0, 1, 0⟩, 0⟩ with
    | none => (st, none)
    | some p0 =>
      match st.dragOffset with
      | none => (st, none)
      | some off =>
        let p := vadd p0 off
        (⟨st.dragging, ⟨p.x, st.pos.y, p.z⟩, st.dragOffset⟩, some ⟨p.x, st.pos.y, p.z⟩)

/-- The lamp drag useEffect (part_006 lines 105-128) installs its global
listeners only when draggable. -/
def lampDragListeners (draggable : Bool) : Bool := draggable

/-- Start record captured when the head drag begins (part_006 lines 67-69). -/
structure StartHead where
  mx : ℝ
  my : ℝ
  headX : ℝ
  armY : ℝ

/-- Head-drag session state. -/
structure HeadDragState where
  draggingHead : Bool
  startHead : Option StartHead

/-- The two articulated degrees of freedom of the lamp: arm pivot yaw
(rotation.y) and head pivot pitch (rotation.x). -/
structure LampPose where
  armY : ℝ
  headX : ℝ

/-- Head onPointerDown (part_006 lines 315-327): gated on draggable; records
the normalized pointer position and the current pose, fires onDragChange. -/
def lampHeadPointerDown (draggable : Bool) (nx ny : ℝ) (pose : LampPose)
    (st : HeadDragState) : HeadDragState × Option Bool :=
  if draggable = false then (st, none)
  else (⟨true, some ⟨nx, ny, pose.headX, pose.armY⟩⟩, some true)

/-- Geometry props of the lamp used by the head constraint solver, plus the
group's world placement. -/
structure LampParams where
  baseHeight : ℝ
  stemHeight : ℝ
  stemRadius : ℝ
  stemBend : ℝ
  shadeLength : ℝ
  groupPos : V3
  groupYaw : ℝ

/-- Rotation about the Y axis (three.js rotation.y). -/
def rotY (a : ℝ) (v : V3) : V3 :=
  ⟨Real.cos a * v.x + Real.sin a * v.z, v.y, -Real.sin a * v.x + Real.cos a * v.z⟩

/-- Rotation about the X axis (three.js rotation.x). -/
def rotX (a : ℝ) (v : V3) : V3 :=
  ⟨v.x, Real.cos a * v.y - Real.sin a * v.z, Real.sin a * v.y + Real.cos a * v.z⟩

/-- armPivot.localToWorld under a given arm yaw: the group translation and
yaw, then the pivot's own yaw (the pivot sits at the group origin). -/
def armToWorld (L : LampParams) (armY : ℝ) (v : V3) : V3 :=
  vadd L.groupPos (rotY L.groupYaw (rotY armY v))

/-- headPivot.localToWorld under candidate angles: the head pivot sits at
(0, baseHeight + stemHeight, stemBend) with rotation.x = headX inside the arm
pivot. -/
def headToWorld (L : LampParams) (armY headX : ℝ) (v : V3) : V3 :=
  armToWorld L armY (vadd ⟨0, L.baseHeight + L.stemHeight, L.stemBend⟩ (rotX headX v))

/-- distPointToSegment (part_006 lines 134-142). -/
def distPointToSegment (p a b : V3) : ℝ :=
  let ab := vsub b a
  let ap := vsub p a
  let t := max 0 (min 1 (vdot ap ab / max 1e-6 (vdot ab ab)))
  vdist p (vadd a (vsmul t ab))

/-- Minimum distance from p to the consecutive segments of a polyline; none
plays the role of the loop's untouched Infinity seed (part_006 lines
209-213). -/
def minDistToPolyline (p : V3) : List V3 → Option ℝ
  | a :: b :: rest =>
    some (match minDistToPolyline p (b :: rest) with
          | some m => min (distPointToSegment p a b) m
          | none => distPointToSegment p a b)
  | _ => none

/-- Candidate pose computed by the head onMove from the normalized pointer
delta (part_006 lines 178-192): yaw clamped to [-0.75 pi, 0.75 pi], pitch
clamped to [-pi, 0.25 pi]. -/
def lampHeadCandidate (start : StartHead) (nx ny : ℝ) : LampPose :=
  ⟨min (Real.pi * 0.75) (max (-Real.pi * 0.75) (start.armY + (nx - start.mx) * Real.pi)),
   min (Real.pi * 0.25) (max (-Real.pi * 1.0) (start.headX + (ny - start.my) * (Real.pi * 0.8)))⟩

/-- World position of the bulb centre under a candidate pose
(bulbLocal = (0, -shadeLength * 0.55, 0), part_006 lines 194-206). -/
def lampBulbWorld (L : LampParams) (pose : LampPose) : V3 :=
  headToWorld L pose.armY pose.headX ⟨0, -L.shadeLength * 0.55, 0⟩

/-- sampleStemWorld (part_006 lines 144-172): 11 samples of the body curve at
parameters 0.6 .. 1.0 carried to world space under the candidate arm yaw. The
Catmull-Rom body curve is a three.js library routine abstracted as the
function argument. -/
def stemSamples (L : LampParams) (curve : ℝ → V3) (armY : ℝ) : List V3 :=
  (List.range 11).map (fun (i : ℕ) => armToWorld L armY (curve (0.6 + 0.4 * (i : ℝ) / 10)))

/-- Collision predicate of the head onMove: minimum bulb-to-tube distance
below tubeRadius + bulbRadius - safety = stemRadius + 0.07 - 0.01
(part_006 lines 194-214). -/
def lampColliding (L : LampParams) (curve : ℝ → V3) (pose : LampPose) : Prop :=
  match minDistToPolyline (lampBulbWorld L pose) (stemSamples L curve pose.armY) with
  | some m => m < L.stemRadius + 0.07 - 0.01
  | none => False

/-- The head onMove handler (part_006 lines 173-225), transcribed whole:
compute the candidate pose from the pointer delta, tentatively apply it to
obtain the bulb world position and the sampled body tube, and keep the
candidate unless the minimum distance breaches the clearance, in which case
both rotations are reverted to the pose before the event. -/
def lampHeadMove (L : LampParams) (curve : ℝ → V3) (start : StartHead) (nx ny : ℝ)
    (old : LampPose) : LampPose :=
  let dx := nx - start.mx
  let dy := ny - start.my
  let newArmY := min (Real.pi * 0.75) (max (-Real.pi * 0.75) (start.armY + dx * Real.pi))
  let newHeadX := min (Real.pi * 0.25) (max (-Real.pi * 1.0) (start.headX + dy * (Real.pi * 0.8)))
  let bulbWorld := headToWorld L newArmY newHeadX ⟨0, -L.shadeLength * 0.55, 0⟩
  let stemPts := (List.range 11).map
    (fun (i : ℕ) => armToWorld L newArmY (curve (0.6 + 0.4 * (i : ℝ) / 10)))
  let minDist := minDistToPolyline bulbWorld stemPts
  let colliding : Prop := match minDist with
    | some m => m < L.stemRadius + 0.07 - 0.01
    | none => False
  if colliding then ⟨old.armY, old.headX⟩ else ⟨newArmY, newHeadX⟩

/-- Angular offsets of the steam columns (CoffeeSteam.tsx lines 34-41):
column i at angle (i / columns) * 2 pi, radius spread. -/
def steamOffsets (columns : ℕ) (spread : ℝ) : List (ℝ × ℝ) :=
  (List.range columns).map (fun (i : ℕ) =>
    (Real.cos ((i : ℝ) / (columns : ℝ) * Real.pi * 2) * spread,
     Real.sin ((i : ℝ) / (columns : ℝ) * Real.pi * 2) * spread))

/-- Per-frame material time uniforms of the steam columns (CoffeeSteam.tsx
line 54): uTime of column i is t * speed * (1 + i * 0.07). -/
def steamUniforms (columns : ℕ) (speed t : ℝ) : List ℝ :=
  (List.range columns).map (fun (i : ℕ) => t * speed * (1.0 + (i : ℝ) * 0.07))

end

/-! ## Theorems -/

section Theorems

lemma normHeight_nonneg (P : ParticleParams) (y : ℝ) : 0 ≤ normHeight P y :=
  le_min (le_max_right _ _) zero_le_one

lemma normHeight_le_one (P : ParticleParams) (y : ℝ) : normHeight P y ≤ 1 :=
  min_le_right _ _

/-- With the sector and angular-lobe reductions at 0, the allowed radius is the
plain interpolated profile minus the margins, independently of x and z. -/
lemma allowedRadius_default (P : ParticleParams) (hs : P.sectorBoost = 0)
    (ha : P.angleBoost = 0) (x z ty : ℝ) :
    allowedRadius P x z ty =
      lerp P.cupInnerRadiusBottom P.cupInnerRadiusTop ty - P.innerMargin - P.wallEpsilon := by
  unfold allowedRadius
  simp only [hs, ha, sub_zero, ite_self, lt_self_iff_false, and_false, if_false]

lemma frameClamp_le (P : ParticleParams) (x z y : ℝ)
    (hA : 0 ≤ allowedRadius P x z (normHeight P y)) :
    Real.sqrt ((frameClamp P x z y).1 * (frameClamp P x z y).1 +
               (frameClamp P x z y).2 * (frameClamp P x z y).2) ≤
      allowedRadius P x z (normHeight P y) := by
  unfold frameClamp
  set aR := allowedRadius P x z (normHeight P y) with haR
  by_cases h : Real.sqrt (x * x + z * z) > aR
  · rw [if_pos h]
    dsimp only
    have hM : (0 : ℝ) < max (Real.sqrt (x * x + z * z)) 1e-6 :=
      lt_of_lt_of_le (by norm_num) (le_max_right _ _)
    have hk : 0 ≤ aR / max (Real.sqrt (x * x + z * z)) 1e-6 := div_nonneg hA hM.le
    have hsq : (x * (aR / max (Real.sqrt (x * x + z * z)) 1e-6)) *
               (x * (aR / max (Real.sqrt (x * x + z * z)) 1e-6)) +
               (z * (aR / max (Real.sqrt (x * x + z * z)) 1e-6)) *
               (z * (aR / max (Real.sqrt (x * x + z * z)) 1e-6)) =
               ((aR / max (Real.sqrt (x * x + z * z)) 1e-6) *
                (aR / max (Real.sqrt (x * x + z * z)) 1e-6)) * (x * x + z * z) := by ring
    rw [hsq, Real.sqrt_mul (mul_self_nonneg _), Real.sqrt_mul_self hk]
    have h1 : Real.sqrt (x * x + z * z) / max (Real.sqrt (x * x + z * z)) 1e-6 ≤ 1 :=
      (div_le_one hM).mpr (le_max_left _ _)
    calc aR / max (Real.sqrt (x * x + z * z)) 1e-6 * Real.sqrt (x * x + z * z)
        = aR * (Real.sqrt (x * x + z * z) / max (Real.sqrt (x * x + z * z)) 1e-6) := by ring
      _ ≤ aR * 1 := mul_le_mul_of_nonneg_left h1 hA
      _ = aR := mul_one _
  · rw [if_neg h]
    exact le_of_not_lt h

lemma seedClamp_le (P : ParticleParams) (x z y : ℝ)
    (hA : 0 ≤ allowedRadius P x z (normHeight P y)) :
    Real.sqrt ((seedClamp P x z y).1 * (seedClamp P x z y).1 +
               (seedClamp P x z y).2 * (seedClamp P x z y).2) ≤
      allowedRadius P x z (normHeight P y) := by
  unfold seedClamp
  set aR := allowedRadius P x z (normHeight P y) with haR
  by_cases h : Real.sqrt (x * x + z * z) > aR
  · rw [if_pos h]
    dsimp only
    have hrr : (0 : ℝ) < Real.sqrt (x * x + z * z) := lt_of_le_of_lt hA h
    have hk : 0 ≤ aR / Real.sqrt (x * x + z * z) := div_nonneg hA hrr.le
    have hsq : (x * (aR / Real.sqrt (x * x + z * z))) * (x * (aR / Real.sqrt (x * x + z * z))) +
               (z * (aR / Real.sqrt (x * x + z * z))) * (z * (aR / Real.sqrt (x * x + z * z))) =
               ((aR / Real.sqrt (x * x + z * z)) * (aR / Real.sqrt (x * x + z * z))) *
                 (x * x + z * z) := by ring
    rw [hsq, Real.sqrt_mul (mul_self_nonneg _), Real.sqrt_mul_self hk,
      div_mul_cancel₀ _ hrr.ne']
  · rw [if_neg h]
    exact le_of_not_lt h

/-- Under the default sector/angle parameters the allowed radius is nonnegative
whenever the margins fit under the interpolated profile on [0, 1]. -/
lemma allowedRadius_nonneg (P : ParticleParams) (hs : P.sectorBoost = 0)
    (ha : P.angleBoost = 0)
    (hmargin : ∀ ty : ℝ, 0 ≤ ty → ty ≤ 1 →
      P.innerMargin + P.wallEpsilon ≤ lerp P.cupInnerRadiusBottom P.cupInnerRadiusTop ty)
    (x z y : ℝ) : 0 ≤ allowedRadius P x z (normHeight P y) := by
  rw [allowedRadius_default P hs ha]
  have := hmargin (normHeight P y) (normHeight_nonneg P y) (normHeight_le_one P y)
  linarith

/-- C1. Particle radial containment: with constrainInside on and the sector and
angular-lobe reductions at their defaults (0), whenever a freshly seeded
particle, or the result of any single per-frame update applied to an arbitrary
particle (hence any particle after an arbitrary sequence of
integrate/swirl/contain/recycle steps), has y below rimY, its horizontal
distance from the axis is at most
lerp(cupInnerRadiusBottom, cupInnerRadiusTop, normalizedHeight) - innerMargin. -/
theorem particle_radial_containment (P : ParticleParams)
    (hconstrain : P.constrainInside = true)
    (hs : P.sectorBoost = 0) (ha : P.angleBoost = 0)
    (hwall : 0 ≤ P.wallEpsilon)
    (hmargin : ∀ ty : ℝ, 0 ≤ ty → ty ≤ 1 →
      P.innerMargin + P.wallEpsilon ≤ lerp P.cupInnerRadiusBottom P.cupInnerRadiusTop ty) :
    (∀ d : Draws, (seedParticle P d).y < P.rimY →
      radialDist (seedParticle P d) ≤
        lerp P.cupInnerRadiusBottom P.cupInnerRadiusTop
          (normHeight P (seedParticle P d).y) - P.innerMargin) ∧
    (∀ (t dt : ℝ) (d : Draws) (p : Particle), (updateParticle P t dt d p).y < P.rimY →
      radialDist (updateParticle P t dt d p) ≤
        lerp P.cupInnerRadiusBottom P.cupInnerRadiusTop
          (normHeight P (updateParticle P t dt d p).y) - P.innerMargin) := by
  have key : ∀ x z y : ℝ,
      Real.sqrt ((seedClamp P x z y).1 * (seedClamp P x z y).1 +
                 (seedClamp P x z y).2 * (seedClamp P x z y).2) ≤
        lerp P.cupInnerRadiusBottom P.cupInnerRadiusTop (normHeight P y) - P.innerMargin := by
    intro x z y
    have h1 := seedClamp_le P x z y (allowedRadius_nonneg P hs ha hmargin x z y)
    rw [allowedRadius_default P hs ha] at h1
    linarith
  have keyF : ∀ x z y : ℝ,
      Real.sqrt ((frameClamp P x z y).1 * (frameClamp P x z y).1 +
                 (frameClamp P x z y).2 * (frameClamp P x z y).2) ≤
        lerp P.cupInnerRadiusBottom P.cupInnerRadiusTop (normHeight P y) - P.innerMargin := by
    intro x z y
    have h1 := frameClamp_le P x z y (allowedRadius_nonneg P hs ha hmargin x z y)
    rw [allowedRadius_default P hs ha] at h1
    linarith
  constructor
  · intro d _
    unfold seedParticle radialDist
    rw [hconstrain]
    simp only [if_true]
    exact key _ _ _
  · intro t dt d p hy
    unfold updateParticle radialDist at *
    by_cases hresp : p.y + p.speed * dt > P.baseY + P.height
    · rw [if_pos hresp] at hy ⊢
      dsimp only at hy ⊢
      rw [hconstrain]
      simp only [if_true]
      exact key _ _ _
    · rw [if_neg hresp] at hy ⊢
      dsimp only at hy ⊢
      have hcond : P.constrainInside = true ∧ p.y + p.speed * dt < P.rimY + 0.005 :=
        ⟨hconstrain, by linarith⟩
      rw [if_pos hcond]
      exact keyF _ _ _

/-- Witness for C1 at the component's default parameters. -/
theorem particle_radial_containment_witness :
    (defaultParams.constrainInside = true ∧ defaultParams.sectorBoost = 0 ∧
     defaultParams.angleBoost = 0 ∧ (0 : ℝ) ≤ defaultParams.wallEpsilon) ∧
    ((∀ d : Draws, (seedParticle defaultParams d).y < defaultParams.rimY →
      radialDist (seedParticle defaultParams d) ≤
        lerp defaultParams.cupInnerRadiusBottom defaultParams.cupInnerRadiusTop
          (normHeight defaultParams (seedParticle defaultParams d).y) -
          defaultParams.innerMargin) ∧
    (∀ (t dt : ℝ) (d : Draws) (p : Particle),
      (updateParticle defaultParams t dt d p).y < defaultParams.rimY →
      radialDist (updateParticle defaultParams t dt d p) ≤
        lerp defaultParams.cupInnerRadiusBottom defaultParams.cupInnerRadiusTop
          (normHeight defaultParams (updateParticle defaultParams t dt d p).y) -
          defaultParams.innerMargin)) := by
  refine ⟨⟨rfl, rfl, rfl, by norm_num [defaultParams]⟩, ?_⟩
  refine particle_radial_containment defaultParams rfl rfl rfl
    (by norm_num [defaultParams]) ?_
  intro ty h0 h1
  simp only [defaultParams, lerp]
  nlinarith

/-- C3. Recycling conservation: seeding produces exactly count particles and a
frame advance preserves the pool size; starting from a particle with
y ≤ baseY + height, the integrated height examined by the recycle check
exceeds baseY + height by at most one frame's verticalSpeed * dt; the update
respawns exactly when that integrated height exceeds baseY + height, landing
in [baseY, baseY + 0.12); otherwise y is exactly the integrated height; and
when height ≥ 0.12 the bound y ≤ baseY + height is preserved. -/
theorem particle_recycling_conservation (P : ParticleParams) (t dt : ℝ) (ds : ℕ → Draws)
    (pool : List Particle) (d : Draws) (p : Particle)
    (hu0 : 0 ≤ d.uY) (hu1 : d.uY < 1)
    (hy : p.y ≤ P.baseY + P.height) :
    (stepPool P t dt ds pool).length = pool.length ∧
    (seedPool P ds).length = P.count ∧
    p.y + p.speed * dt ≤ P.baseY + P.height + p.speed * dt ∧
    (p.y + p.speed * dt > P.baseY + P.height →
      P.baseY ≤ (updateParticle P t dt d p).y ∧
      (updateParticle P t dt d p).y < P.baseY + 0.12) ∧
    (¬ p.y + p.speed * dt > P.baseY + P.height →
      (updateParticle P t dt d p).y = p.y + p.speed * dt) ∧
    (0.12 ≤ P.height → (updateParticle P t dt d p).y ≤ P.baseY + P.height) := by
  have hlen : (stepPool P t dt ds pool).length = pool.length := by
    simp [stepPool]
  have hseed : (seedPool P ds).length = P.count := by
    simp [seedPool]
  have hresp : p.y + p.speed * dt > P.baseY + P.height →
      P.baseY ≤ (updateParticle P t dt d p).y ∧
      (updateParticle P t dt d p).y < P.baseY + 0.12 := by
    intro h
    unfold updateParticle
    rw [if_pos h]
    dsimp only
    constructor
    · nlinarith
    · nlinarith
  have hnoresp : ¬ p.y + p.speed * dt > P.baseY + P.height →
      (updateParticle P t dt d p).y = p.y + p.speed * dt := by
    intro h
    unfold updateParticle
    rw [if_neg h]
  refine ⟨hlen, hseed, by linarith, hresp, hnoresp, ?_⟩
  intro hh
  by_cases h : p.y + p.speed * dt > P.baseY + P.height
  · have := hresp h
    linarith [this.2]
  · rw [hnoresp h]
    push_neg at h
    exact h

/-- Witness for C3 at the default parameters, dt = 1/60, a half-range draw and
a resting particle. -/
theorem particle_recycling_conservation_witness :
    ((0 : ℝ) ≤ (⟨0.5, 0.5, 0.5, 0.5, 0.5⟩ : Draws).uY ∧
     (⟨0.5, 0.5, 0.5, 0.5, 0.5⟩ : Draws).uY < 1 ∧
     (⟨0.1, 0.2, 0.3, 0.3, 0⟩ : Particle).y ≤ defaultParams.baseY + defaultParams.height) ∧
    ((stepPool defaultParams 0 (1/60) (fun _ => ⟨0.5, 0.5, 0.5, 0.5, 0.5⟩) []).length =
      ([] : List Particle).length ∧
     (seedPool defaultParams (fun _ => ⟨0.5, 0.5, 0.5, 0.5, 0.5⟩)).length =
      defaultParams.count ∧
     (⟨0.1, 0.2, 0.3, 0.3, 0⟩ : Particle).y + (⟨0.1, 0.2, 0.3, 0.3, 0⟩ : Particle).speed * (1/60) ≤
      defaultParams.baseY + defaultParams.height +
        (⟨0.1, 0.2, 0.3, 0.3, 0⟩ : Particle).speed * (1/60) ∧
     ((⟨0.1, 0.2, 0.3, 0.3, 0⟩ : Particle).y +
        (⟨0.1, 0.2, 0.3, 0.3, 0⟩ : Particle).speed * (1/60) >
        defaultParams.baseY + defaultParams.height →
      defaultParams.baseY ≤
        (updateParticle defaultParams 0 (1/60) ⟨0.5, 0.5, 0.5, 0.5, 0.5⟩
          ⟨0.1, 0.2, 0.3, 0.3, 0⟩).y ∧
      (updateParticle defaultParams 0 (1/60) ⟨0.5, 0.5, 0.5, 0.5, 0.5⟩
          ⟨0.1, 0.2, 0.3, 0.3, 0⟩).y < defaultParams.baseY + 0.12) ∧
     (¬ (⟨0.1, 0.2, 0.3, 0.3, 0⟩ : Particle).y +
        (⟨0.1, 0.2, 0.3, 0.3, 0⟩ : Particle).speed * (1/60) >
        defaultParams.baseY + defaultParams.height →
      (updateParticle defaultParams 0 (1/60) ⟨0.5, 0.5, 0.5, 0.5, 0.5⟩
          ⟨0.1, 0.2, 0.3, 0.3, 0⟩).y =
        (⟨0.1, 0.2, 0.3, 0.3, 0⟩ : Particle).y +
        (⟨0.1, 0.2, 0.3, 0.3, 0⟩ : Particle).speed * (1/60)) ∧
     (0.12 ≤ defaultParams.height →
      (updateParticle defaultParams 0 (1/60) ⟨0.5, 0.5, 0.5, 0.5, 0.5⟩
          ⟨0.1, 0.2, 0.3, 0.3, 0⟩).y ≤ defaultParams.baseY + defaultParams.height)) := by
  refine ⟨⟨by norm_num, by norm_num, by norm_num [defaultParams]⟩, ?_⟩
  exact particle_recycling_conservation defaultParams 0 (1/60)
    (fun _ => ⟨0.5, 0.5, 0.5, 0.5, 0.5⟩) [] ⟨0.5, 0.5, 0.5, 0.5, 0.5⟩ ⟨0.1, 0.2, 0.3, 0.3, 0⟩
    (by norm_num) (by norm_num) (by norm_num [defaultParams])

/-- The free-fall branch of the physics frame, written out. -/
lemma physicsStep_free (topY fs dt : ℝ) (s : ℝ × ℝ) :
    physicsStep false false topY fs dt s =
      if s.1 + (s.2 - gravity * dt) * dt < fs then (fs, 0)
      else (s.1 + (s.2 - gravity * dt) * dt, s.2 - gravity * dt) := rfl

lemma physicsIter_succ (topY fs dt y0 : ℝ) (n : ℕ) :
    physicsIter topY fs dt y0 (n + 1) =
      physicsStep false false topY fs dt (physicsIter topY fs dt y0 n) := rfl

lemma physicsIter_vel_nonpos (topY fs dt y0 : ℝ) (hdt : 0 ≤ dt) (n : ℕ) :
    (physicsIter topY fs dt y0 n).2 ≤ 0 := by
  induction n with
  | zero => simp [physicsIter]
  | succ n ih =>
    rw [physicsIter_succ, physicsStep_free]
    by_cases h : (physicsIter topY fs dt y0 n).1 +
        ((physicsIter topY fs dt y0 n).2 - gravity * dt) * dt < fs
    · rw [if_pos h]
    · rw [if_neg h]
      dsimp only
      have hg : 0 ≤ gravity * dt := by unfold gravity; positivity
      linarith

lemma physicsIter_floor_absorb (topY fs dt y0 : ℝ) (hdt : 0 < dt) (n : ℕ)
    (hfl : (physicsIter topY fs dt y0 n).1 = fs) :
    physicsIter topY fs dt y0 (n + 1) = (fs, 0) := by
  have hv := physicsIter_vel_nonpos topY fs dt y0 hdt.le n
  rw [physicsIter_succ, physicsStep_free, hfl]
  have hg : 0 < gravity * dt := by unfold gravity; positivity
  have h1 : (physicsIter topY fs dt y0 n).2 - gravity * dt < 0 := by linarith
  have h2 := mul_neg_of_neg_of_pos h1 hdt
  rw [if_pos (by linarith)]

lemma physicsIter_ge_floor (topY fs dt y0 : ℝ) (n : ℕ) :
    fs ≤ (physicsIter topY fs dt y0 (n + 1)).1 := by
  rw [physicsIter_succ, physicsStep_free]
  by_cases h : (physicsIter topY fs dt y0 n).1 +
      ((physicsIter topY fs dt y0 n).2 - gravity * dt) * dt < fs
  · rw [if_pos h]
  · rw [if_neg h]
    exact le_of_not_lt h

/-- C5. Drop physics: with physics on, the cup neither dragged nor over the
desk, and zero initial vertical velocity, the height strictly decreases on
every frame while above floorY + 0.6 * scale; once the height equals that
floor stop it stays there forever and the state is exactly (floorStop, 0) from
the next frame on; the height never undershoots the floor stop; and the floor
stop is reached after finitely many frames. -/
theorem drop_physics_monotone (topY floorY scale dt y0 : ℝ) (hdt : 0 < dt) :
    (∀ n : ℕ,
      (physicsIter topY (floorStopOf floorY scale) dt y0 n).1 > floorStopOf floorY scale →
      (physicsIter topY (floorStopOf floorY scale) dt y0 (n + 1)).1 <
        (physicsIter topY (floorStopOf floorY scale) dt y0 n).1) ∧
    (∀ n m : ℕ,
      (physicsIter topY (floorStopOf floorY scale) dt y0 n).1 = floorStopOf floorY scale →
      n ≤ m →
      (physicsIter topY (floorStopOf floorY scale) dt y0 m).1 = floorStopOf floorY scale ∧
      physicsIter topY (floorStopOf floorY scale) dt y0 (n + 1) =
        (floorStopOf floorY scale, 0)) ∧
    (∀ n : ℕ,
      floorStopOf floorY scale ≤
        (physicsIter topY (floorStopOf floorY scale) dt y0 (n + 1)).1) ∧
    (∃ N : ℕ,
      physicsIter topY (floorStopOf floorY scale) dt y0 N =
        (floorStopOf floorY scale, 0)) := by
  set fs := floorStopOf floorY scale with hfsdef
  have habs : ∀ n : ℕ, (physicsIter topY fs dt y0 n).1 = fs →
      physicsIter topY fs dt y0 (n + 1) = (fs, 0) :=
    fun n h => physicsIter_floor_absorb topY fs dt y0 hdt n h
  refine ⟨?_, ?_, ?_, ?_⟩
  · intro n hn
    have hv := physicsIter_vel_nonpos topY fs dt y0 hdt.le n
    rw [physicsIter_succ, physicsStep_free]
    have hg : 0 < gravity * dt := by unfold gravity; positivity
    have h1 : (physicsIter topY fs dt y0 n).2 - gravity * dt < 0 := by linarith
    have h2 := mul_neg_of_neg_of_pos h1 hdt
    by_cases h : (physicsIter topY fs dt y0 n).1 +
        ((physicsIter topY fs dt y0 n).2 - gravity * dt) * dt < fs
    · rw [if_pos h]
      linarith
    · rw [if_neg h]
      dsimp only
      linarith
  · intro n m hfl hnm
    constructor
    · induction m, hnm using Nat.le_induction with
      | base => exact hfl
      | succ m hm ih => rw [habs m ih]
    · exact habs n hfl
  · exact fun n => physicsIter_ge_floor topY fs dt y0 n
  · by_contra hcon
    push_neg at hcon
    have inv : ∀ n : ℕ,
        (physicsIter topY fs dt y0 n).2 = -(gravity * dt * n) ∧
        (physicsIter topY fs dt y0 n).1 = y0 - gravity * dt ^ 2 * (n * (n + 1) / 2) := by
      intro n
      induction n with
      | zero => simp [physicsIter]
      | succ n ih =>
        obtain ⟨ihv, ihy⟩ := ih
        by_cases hclamp : (physicsIter topY fs dt y0 n).1 +
            ((physicsIter topY fs dt y0 n).2 - gravity * dt) * dt < fs
        · exfalso
          apply hcon (n + 1)
          rw [physicsIter_succ, physicsStep_free, if_pos hclamp]
        · rw [physicsIter_succ, physicsStep_free, if_neg hclamp]
          constructor
          · dsimp only
            rw [ihv]
            push_cast
            ring
          · dsimp only
            rw [ihy, ihv]
            push_cast
            ring
    have hg : 0 < gravity * dt ^ 2 := by unfold gravity; positivity
    obtain ⟨k, hk⟩ := exists_nat_gt ((y0 - fs) / (gravity * dt ^ 2))
    have h1 : y0 - fs < gravity * dt ^ 2 * k := by
      rw [div_lt_iff₀ hg] at hk
      linarith
    have h2 := (inv (k + 1)).2
    push_cast at h2
    have h3 := physicsIter_ge_floor topY fs dt y0 k
    have h4 : ((k : ℝ) + 1) * ((k : ℝ) + 1 + 1) / 2 ≥ (k : ℝ) + 1 := by
      nlinarith [(Nat.cast_nonneg k : (0 : ℝ) ≤ (k : ℝ))]
    have h5 : gravity * dt ^ 2 * (((k : ℝ) + 1) * ((k : ℝ) + 1 + 1) / 2) ≥
        gravity * dt ^ 2 * ((k : ℝ) + 1) := mul_le_mul_of_nonneg_left h4 hg.le
    have h6 : gravity * dt ^ 2 * ((k : ℝ) + 1) =
        gravity * dt ^ 2 * (k : ℝ) + gravity * dt ^ 2 := by ring
    linarith

/-- Witness for C5 at topY = 1, floorY = -0.7, scale = 1, dt = 1/60, y0 = 1. -/
theorem drop_physics_monotone_witness :
    (0 : ℝ) < 1 / 60 ∧
    ((∀ n : ℕ,
      (physicsIter 1 (floorStopOf (-0.7) 1) (1/60) 1 n).1 > floorStopOf (-0.7) 1 →
      (physicsIter 1 (floorStopOf (-0.7) 1) (1/60) 1 (n + 1)).1 <
        (physicsIter 1 (floorStopOf (-0.7) 1) (1/60) 1 n).1) ∧
    (∀ n m : ℕ,
      (physicsIter 1 (floorStopOf (-0.7) 1) (1/60) 1 n).1 = floorStopOf (-0.7) 1 →
      n ≤ m →
      (physicsIter 1 (floorStopOf (-0.7) 1) (1/60) 1 m).1 = floorStopOf (-0.7) 1 ∧
      physicsIter 1 (floorStopOf (-0.7) 1) (1/60) 1 (n + 1) = (floorStopOf (-0.7) 1, 0)) ∧
    (∀ n : ℕ,
      floorStopOf (-0.7) 1 ≤ (physicsIter 1 (floorStopOf (-0.7) 1) (1/60) 1 (n + 1)).1) ∧
    (∃ N : ℕ,
      physicsIter 1 (floorStopOf (-0.7) 1) (1/60) 1 N = (floorStopOf (-0.7) 1, 0))) :=
  ⟨by norm_num, drop_physics_monotone 1 (-0.7) 1 (1/60) 1 (by norm_num)⟩

/-- Characterization of one liquid frame applied to a state compatible with
the initial vertex list v: the rest buffer comes out as exactly v and the live
vertex i is v's vertex with its height replaced by rest + wave when the rest
height is positive, untouched otherwise. -/
lemma liquidFrame_get (v : List Vtx) (st : LiquidState) (t : ℝ) (hg : GoodLiquid v st) :
    (liquidFrame t st).base = some v ∧
    (liquidFrame t st).arr.length = v.length ∧
    ∀ (i : ℕ) (h : i < v.length) (hh : i < (liquidFrame t st).arr.length),
      (liquidFrame t st).arr.get ⟨i, hh⟩ =
        ⟨(v.get ⟨i, h⟩).x,
         if (v.get ⟨i, h⟩).y > 0 then
           (v.get ⟨i, h⟩).y + waveAt (v.get ⟨i, h⟩).x (v.get ⟨i, h⟩).z t
         else (v.get ⟨i, h⟩).y,
         (v.get ⟨i, h⟩).z⟩ := by
  rcases hg with ⟨hb, ha⟩ | ⟨hb, hlen, hco⟩
  · subst ha
    refine ⟨by simp [liquidFrame, hb], by simp [liquidFrame, hb], ?_⟩
    intro i h hh
    simp only [liquidFrame, hb, Option.getD_none, List.get_eq_getElem] at hh ⊢
    rw [List.getElem_zipWith]
  · refine ⟨by simp [liquidFrame, hb], by simp [liquidFrame, hb, hlen], ?_⟩
    intro i h hh
    have hh2 : i < st.arr.length := by omega
    simp only [liquidFrame, hb, Option.getD_some, List.get_eq_getElem] at hh ⊢
    rw [List.getElem_zipWith]
    obtain ⟨hx, hz, hy⟩ := hco i h hh2
    simp only [List.get_eq_getElem] at hx hz hy
    by_cases hpos : (v.get ⟨i, h⟩).y > 0
    · simp only [List.get_eq_getElem] at hpos
      rw [if_pos hpos, if_pos hpos, hx, hz]
    · simp only [List.get_eq_getElem] at hpos
      rw [if_neg hpos, if_neg hpos, hx, hz, hy (le_of_not_lt hpos)]

lemma liquidFrame_good (v : List Vtx) (st : LiquidState) (t : ℝ) (hg : GoodLiquid v st) :
    GoodLiquid v (liquidFrame t st) := by
  obtain ⟨hb, hlen, hget⟩ := liquidFrame_get v st t hg
  right
  refine ⟨hb, hlen, ?_⟩
  intro i h hh
  rw [hget i h hh]
  refine ⟨rfl, rfl, ?_⟩
  intro hy
  dsimp only
  rw [if_neg (not_lt.mpr hy)]

lemma liquidRun_good (v : List Vtx) (ts : List ℝ) (st : LiquidState) (hg : GoodLiquid v st) :
    GoodLiquid v (liquidRun ts st) := by
  induction ts generalizing st with
  | nil => exact hg
  | cons t ts ih =>
    have : liquidRun (t :: ts) st = liquidRun ts (liquidFrame t st) := rfl
    rw [this]
    exact ih _ (liquidFrame_good v st t hg)

/-- C6. Liquid rest-height immutability and selective displacement: running
any nonempty sequence of frames from an uncaptured state leaves the rest
buffer exactly at the initial vertices forever; the live buffer keeps its
size; and after the frame at time tl, vertex i is the initial vertex with its
height rewritten to rest + wave exactly when its rest height is strictly
positive, and exactly its rest height otherwise (x and z never change). -/
theorem liquid_rest_height_immutability (v : List Vtx) (ts : List ℝ) (tl : ℝ) :
    (liquidRun (ts ++ [tl]) ⟨none, v⟩).base = some v ∧
    (liquidRun (ts ++ [tl]) ⟨none, v⟩).arr.length = v.length ∧
    ∀ (i : ℕ) (h : i < v.length) (hh : i < (liquidRun (ts ++ [tl]) ⟨none, v⟩).arr.length),
      (liquidRun (ts ++ [tl]) ⟨none, v⟩).arr.get ⟨i, hh⟩ =
        ⟨(v.get ⟨i, h⟩).x,
         if (v.get ⟨i, h⟩).y > 0 then
           (v.get ⟨i, h⟩).y + waveAt (v.get ⟨i, h⟩).x (v.get ⟨i, h⟩).z tl
         else (v.get ⟨i, h⟩).y,
         (v.get ⟨i, h⟩).z⟩ := by
  have hrun : liquidRun (ts ++ [tl]) (⟨none, v⟩ : LiquidState) =
      liquidFrame tl (liquidRun ts ⟨none, v⟩) := by
    simp [liquidRun, List.foldl_append]
  have hg : GoodLiquid v (liquidRun ts ⟨none, v⟩) :=
    liquidRun_good v ts ⟨none, v⟩ (Or.inl ⟨rfl, rfl⟩)
  rw [hrun] at *
  exact liquidFrame_get v _ tl hg

/-- Witness for C6 on a two-vertex buffer (one domed vertex, one base vertex)
after a single frame at time 2. -/
theorem liquid_rest_height_immutability_witness :
    (liquidRun ([] ++ [2]) ⟨none, [⟨3, 1, 4⟩, ⟨5, -1, 6⟩]⟩).base =
      some [⟨3, 1, 4⟩, ⟨5, -1, 6⟩] ∧
    (liquidRun ([] ++ [2]) ⟨none, [⟨3, 1, 4⟩, ⟨5, -1, 6⟩]⟩).arr.length =
      ([⟨3, 1, 4⟩, ⟨5, -1, 6⟩] : List Vtx).length ∧
    ∀ (i : ℕ) (h : i < ([⟨3, 1, 4⟩, ⟨5, -1, 6⟩] : List Vtx).length)
      (hh : i < (liquidRun ([] ++ [2]) ⟨none, [⟨3, 1, 4⟩, ⟨5, -1, 6⟩]⟩).arr.length),
      (liquidRun ([] ++ [2]) ⟨none, [⟨3, 1, 4⟩, ⟨5, -1, 6⟩]⟩).arr.get ⟨i, hh⟩ =
        ⟨(([⟨3, 1, 4⟩, ⟨5, -1, 6⟩] : List Vtx).get ⟨i, h⟩).x,
         if (([⟨3, 1, 4⟩, ⟨5, -1, 6⟩] : List Vtx).get ⟨i, h⟩).y > 0 then
           (([⟨3, 1, 4⟩, ⟨5, -1, 6⟩] : List Vtx).get ⟨i, h⟩).y +
             waveAt (([⟨3, 1, 4⟩, ⟨5, -1, 6⟩] : List Vtx).get ⟨i, h⟩).x
               (([⟨3, 1, 4⟩, ⟨5, -1, 6⟩] : List Vtx).get ⟨i, h⟩).z 2
         else (([⟨3, 1, 4⟩, ⟨5, -1, 6⟩] : List Vtx).get ⟨i, h⟩).y,
         (([⟨3, 1, 4⟩, ⟨5, -1, 6⟩] : List Vtx).get ⟨i, h⟩).z⟩ :=
  liquid_rest_height_immutability [⟨3, 1, 4⟩, ⟨5, -1, 6⟩] [] 2

/-- A successful ray-plane intersection satisfies the plane equation. -/
lemma rayDistanceToPlane_spec (origin dir : V3) (pl : Plane3) (t : ℝ)
    (h : rayDistanceToPlane origin dir pl = some t) :
    vdot pl.normal (vadd origin (vsmul t dir)) + pl.constant = 0 := by
  unfold rayDistanceToPlane at h
  by_cases hd : vdot pl.normal dir = 0
  · rw [if_pos hd] at h
    by_cases h0 : vdot pl.normal origin + pl.constant = 0
    · rw [if_pos h0] at h
      have ht : t = 0 := (Option.some_inj.mp h).symm
      subst ht
      simp only [vdot, vadd, vsmul] at h0 ⊢
      nlinarith [h0]
    · rw [if_neg h0] at h
      exact absurd h (by simp)
  · rw [if_neg hd] at h
    dsimp only at h
    by_cases ht : 0 ≤ -(vdot origin pl.normal + pl.constant) / vdot pl.normal dir
    · rw [if_pos ht] at h
      have htt : t = -(vdot origin pl.normal + pl.constant) / vdot pl.normal dir :=
        (Option.some_inj.mp h).symm
      subst htt
      have hmul : -(vdot origin pl.normal + pl.constant) / vdot pl.normal dir *
          vdot pl.normal dir = -(vdot origin pl.normal + pl.constant) :=
        div_mul_cancel₀ _ hd
      simp only [vdot, vadd, vsmul] at hmul ⊢
      nlinarith [hmul]
    · rw [if_neg ht] at h
      exact absurd h (by simp)

/-- A successful cup plane projection lies at the drag plane's height. -/
lemma computePlanePoint_y (cfg : CupCfg) (origin dir p : V3)
    (hp : computePlanePoint cfg origin dir = some p) :
    p.y = cupPlaneY cfg := by
  unfold computePlanePoint intersectPlane at hp
  obtain ⟨t, ht, hpt⟩ := Option.map_eq_some'.mp hp
  have hspec := rayDistanceToPlane_spec origin dir (cupDragPlane cfg) t ht
  subst hpt
  unfold cupDragPlane at hspec
  unfold cupPlaneY
  rcases hc : cfg.dragPlaneY with _ | c <;> rw [hc] at hspec <;>
    simp only [vdot, vadd, vsmul] at hspec ⊢ <;> linarith

/-- C7. Ray-plane miss is a no-op: during an active drag session, a
pointermove whose pointer ray fails to intersect the drag plane leaves the
cup state (position included) unchanged and fires no onPositionChange. -/
theorem ray_plane_miss_noop (cfg : CupCfg) (origin dir : V3) (st : CupState)
    (hdrag : st.dragging = true)
    (hmiss : computePlanePoint cfg origin dir = none) :
    cupHandleMove cfg origin dir st = (st, none) := by
  unfold cupHandleMove
  rw [hmiss, hdrag]
  simp

/-- Witness for C7: a ray parallel to (and off) the y = 0 drag plane. -/
theorem ray_plane_miss_noop_witness :
    ((⟨true, ⟨0.2, 0.5, 0.3⟩, none⟩ : CupState).dragging = true ∧
     computePlanePoint ⟨true, 1, none, none, none, 0.4, none⟩ ⟨0, 1, 0⟩ ⟨1, 0, 0⟩ = none) ∧
    cupHandleMove ⟨true, 1, none, none, none, 0.4, none⟩ ⟨0, 1, 0⟩ ⟨1, 0, 0⟩
      ⟨true, ⟨0.2, 0.5, 0.3⟩, none⟩ = (⟨true, ⟨0.2, 0.5, 0.3⟩, none⟩, none) := by
  have hmiss : computePlanePoint ⟨true, 1, none, none, none, 0.4, none⟩
      ⟨0, 1, 0⟩ ⟨1, 0, 0⟩ = none := by
    norm_num [computePlanePoint, cupDragPlane, intersectPlane, rayDistanceToPlane, vdot]
  exact ⟨⟨rfl, hmiss⟩,
    ray_plane_miss_noop ⟨true, 1, none, none, none, 0.4, none⟩ ⟨0, 1, 0⟩ ⟨1, 0, 0⟩
      ⟨true, ⟨0.2, 0.5, 0.3⟩, none⟩ rfl hmiss⟩

/-- C4 (amended). Drag offset continuity: a pointer-down never changes the
cup's position in the same event; and when no desk surface is configured
(deskTopY undefined, hence deskEnabled false) the first pointermove of the
session commits exactly projectedPoint + storedOffset — as a full 3-vector,
since projections at pointer-down and at the move lie on the same drag
plane — and reports that same point. -/
theorem drag_offset_continuity (cfg : CupCfg) (o1 d1 o2 d2 p0 q : V3) (st : CupState)
    (hdrag : cfg.draggable = true)
    (hnodesk : cfg.deskTopY = none)
    (hdown : computePlanePoint cfg o1 d1 = some p0)
    (hmove : computePlanePoint cfg o2 d2 = some q) :
    (cupPointerDown cfg o1 d1 st).1.pos = st.pos ∧
    cupHandleMove cfg o2 d2 (cupPointerDown cfg o1 d1 st).1 =
      (⟨true, vadd q (vsub st.pos p0), some (vsub st.pos p0)⟩,
       some (vadd q (vsub st.pos p0))) := by
  have hpd : cupPointerDown cfg o1 d1 st =
      (⟨true, st.pos, some (vsub st.pos p0)⟩, some true) := by
    unfold cupPointerDown
    rw [hdown, hdrag]
    simp
  have hde : deskEnabled cfg = false := by
    simp [deskEnabled, hnodesk]
  have hcommit : cupCommitPos cfg st.pos.y (vadd q (vsub st.pos p0)) =
      vadd q (vsub st.pos p0) := by
    unfold cupCommitPos
    rw [hde, hnodesk]
    have h1 := computePlanePoint_y cfg o1 d1 p0 hdown
    have h2 := computePlanePoint_y cfg o2 d2 q hmove
    ext <;> simp only [vadd, vsub]
    linarith
  refine ⟨by rw [hpd], ?_⟩
  rw [hpd]
  unfold cupHandleMove
  rw [hmove]
  dsimp only
  rw [hcommit]
  simp

/-- Witness for C4 with no desk configured. -/
theorem drag_offset_continuity_witness :
    ((⟨true, 1, none, none, none, 0.4, none⟩ : CupCfg).draggable = true ∧
     (⟨true, 1, none, none, none, 0.4, none⟩ : CupCfg).deskTopY = none ∧
     computePlanePoint ⟨true, 1, none, none, none, 0.4, none⟩ ⟨0, 1, 0⟩ ⟨0, -1, 0⟩ =
       some ⟨0, 0, 0⟩ ∧
     computePlanePoint ⟨true, 1, none, none, none, 0.4, none⟩ ⟨2, 1, 1⟩ ⟨0, -1, 0⟩ =
       some ⟨2, 0, 1⟩) ∧
    ((cupPointerDown ⟨true, 1, none, none, none, 0.4, none⟩ ⟨0, 1, 0⟩ ⟨0, -1, 0⟩
        ⟨false, ⟨0.5, 0.8, 0.25⟩, none⟩).1.pos = (⟨false, ⟨0.5, 0.8, 0.25⟩, none⟩ : CupState).pos ∧
     cupHandleMove ⟨true, 1, none, none, none, 0.4, none⟩ ⟨2, 1, 1⟩ ⟨0, -1, 0⟩
        (cupPointerDown ⟨true, 1, none, none, none, 0.4, none⟩ ⟨0, 1, 0⟩ ⟨0, -1, 0⟩
          ⟨false, ⟨0.5, 0.8, 0.25⟩, none⟩).1 =
      (⟨true, vadd ⟨2, 0, 1⟩ (vsub (⟨0.5, 0.8, 0.25⟩ : V3) ⟨0, 0, 0⟩),
          some (vsub (⟨0.5, 0.8, 0.25⟩ : V3) ⟨0, 0, 0⟩)⟩,
       some (vadd ⟨2, 0, 1⟩ (vsub (⟨0.5, 0.8, 0.25⟩ : V3) ⟨0, 0, 0⟩)))) := by
  have hdown : computePlanePoint ⟨true, 1, none, none, none, 0.4, none⟩
      ⟨0, 1, 0⟩ ⟨0, -1, 0⟩ = some ⟨0, 0, 0⟩ := by
    norm_num [computePlanePoint, cupDragPlane, intersectPlane, rayDistanceToPlane,
      vdot, vadd, vsmul, V3.mk.injEq]
  have hmove : computePlanePoint ⟨true, 1, none, none, none, 0.4, none⟩
      ⟨2, 1, 1⟩ ⟨0, -1, 0⟩ = some ⟨2, 0, 1⟩ := by
    norm_num [computePlanePoint, cupDragPlane, intersectPlane, rayDistanceToPlane,
      vdot, vadd, vsmul, V3.mk.injEq]
  exact ⟨⟨rfl, rfl, hdown, hmove⟩,
    drag_offset_continuity ⟨true, 1, none, none, none, 0.4, none⟩
      ⟨0, 1, 0⟩ ⟨0, -1, 0⟩ ⟨2, 1, 1⟩ ⟨0, -1, 0⟩ ⟨0, 0, 0⟩ ⟨2, 0, 1⟩
      ⟨false, ⟨0.5, 0.8, 0.25⟩, none⟩ rfl rfl hdown hmove⟩

/-- Counterexample for C4 as frozen: with the desk configured (as SceneCanvas
does), both projections succeed, the session starts normally, yet the first
move commits the X-clamped point (0.6, 0.63, 0), not projectedPoint +
storedOffset = (5, 0.63, 0). -/
theorem drag_offset_continuity_counterexample :
    computePlanePoint ⟨true, 1, some (0, 0), some 0, some (2, 2), 0.4, none⟩
      ⟨0, 1, 0⟩ ⟨0, -1, 0⟩ = some ⟨0, 0, 0⟩ ∧
    computePlanePoint ⟨true, 1, some (0, 0), some 0, some (2, 2), 0.4, none⟩
      ⟨5, 1, 0⟩ ⟨0, -1, 0⟩ = some ⟨5, 0, 0⟩ ∧
    (cupPointerDown ⟨true, 1, some (0, 0), some 0, some (2, 2), 0.4, none⟩
      ⟨0, 1, 0⟩ ⟨0, -1, 0⟩ ⟨false, ⟨0, 0.63, 0⟩, none⟩).1 =
      ⟨true, ⟨0, 0.63, 0⟩, some ⟨0, 0.63, 0⟩⟩ ∧
    (cupHandleMove ⟨true, 1, some (0, 0), some 0, some (2, 2), 0.4, none⟩
      ⟨5, 1, 0⟩ ⟨0, -1, 0⟩ ⟨true, ⟨0, 0.63, 0⟩, some ⟨0, 0.63, 0⟩⟩).1.pos ≠
      vadd ⟨5, 0, 0⟩ ⟨0, 0.63, 0⟩ := by
  have hdown : computePlanePoint ⟨true, 1, some (0, 0), some 0, some (2, 2), 0.4, none⟩
      ⟨0, 1, 0⟩ ⟨0, -1, 0⟩ = some ⟨0, 0, 0⟩ := by
    norm_num [computePlanePoint, cupDragPlane, intersectPlane, rayDistanceToPlane,
      vdot, vadd, vsmul, V3.mk.injEq]
  have hmove : computePlanePoint ⟨true, 1, some (0, 0), some 0, some (2, 2), 0.4, none⟩
      ⟨5, 1, 0⟩ ⟨0, -1, 0⟩ = some ⟨5, 0, 0⟩ := by
    norm_num [computePlanePoint, cupDragPlane, intersectPlane, rayDistanceToPlane,
      vdot, vadd, vsmul, V3.mk.injEq]
  refine ⟨hdown, hmove, ?_, ?_⟩
  · unfold cupPointerDown
    rw [hdown]
    norm_num [vsub, V3.mk.injEq]
  · unfold cupHandleMove
    rw [hmove]
    norm_num [cupCommitPos, deskEnabled, clampR, vadd, min_def, max_def, V3.mk.injEq]

/-- C10. Stale drag offset on failed projection: a pointer-down whose
projection fails still starts the session (dragging := true, onDragChange
fired) but leaves the stored offset untouched; pointer-up never clears the
offset; a move with no offset ever captured is a no-op; and a move always
commits from whatever offset is currently stored, one captured in an earlier
session included. -/
theorem stale_drag_offset (cfg : CupCfg) (o1 d1 o2 d2 q : V3) (st : CupState) (pos : V3)
    (hdrag : cfg.draggable = true)
    (hmiss : computePlanePoint cfg o1 d1 = none)
    (hhit : computePlanePoint cfg o2 d2 = some q) :
    cupPointerDown cfg o1 d1 st = (⟨true, st.pos, st.dragOffset⟩, some true) ∧
    (∀ s : CupState, (cupHandleUp s).1.dragOffset = s.dragOffset) ∧
    cupHandleMove cfg o2 d2 ⟨true, pos, none⟩ = (⟨true, pos, none⟩, none) ∧
    (∀ off : V3, cupHandleMove cfg o2 d2 ⟨true, pos, some off⟩ =
      (⟨true, cupCommitPos cfg pos.y (vadd q off), some off⟩,
       some (cupCommitPos cfg pos.y (vadd q off)))) := by
  refine ⟨?_, ?_, ?_, ?_⟩
  · unfold cupPointerDown
    rw [hmiss, hdrag]
    simp
  · intro s
    unfold cupHandleUp
    by_cases h : s.dragging = true
    · rw [if_pos h]
    · rw [if_neg h]
  · unfold cupHandleMove
    rw [hhit]
    simp
  · intro off
    unfold cupHandleMove
    rw [hhit]
    simp

/-- Witness for C10: a parallel pointer-down ray, then a downward move ray. -/
theorem stale_drag_offset_witness :
    ((⟨true, 1, none, none, none, 0.4, none⟩ : CupCfg).draggable = true ∧
     computePlanePoint ⟨true, 1, none, none, none, 0.4, none⟩ ⟨0, 1, 0⟩ ⟨1, 0, 0⟩ = none ∧
     computePlanePoint ⟨true, 1, none, none, none, 0.4, none⟩ ⟨2, 1, 1⟩ ⟨0, -1, 0⟩ =
       some ⟨2, 0, 1⟩) ∧
    (cupPointerDown ⟨true, 1, none, none, none, 0.4, none⟩ ⟨0, 1, 0⟩ ⟨1, 0, 0⟩
        ⟨false, ⟨0.5, 0.8, 0.25⟩, some ⟨9, 9, 9⟩⟩ =
      (⟨true, (⟨false, ⟨0.5, 0.8, 0.25⟩, some ⟨9, 9, 9⟩⟩ : CupState).pos,
        (⟨false, ⟨0.5, 0.8, 0.25⟩, some ⟨9, 9, 9⟩⟩ : CupState).dragOffset⟩, some true) ∧
     (∀ s : CupState, (cupHandleUp s).1.dragOffset = s.dragOffset) ∧
     cupHandleMove ⟨true, 1, none, none, none, 0.4, none⟩ ⟨2, 1, 1⟩ ⟨0, -1, 0⟩
        ⟨true, ⟨0.5, 0.8, 0.25⟩, none⟩ = (⟨true, ⟨0.5, 0.8, 0.25⟩, none⟩, none) ∧
     (∀ off : V3,
      cupHandleMove ⟨true, 1, none, none, none, 0.4, none⟩ ⟨2, 1, 1⟩ ⟨0, -1, 0⟩
          ⟨true, ⟨0.5, 0.8, 0.25⟩, some off⟩ =
        (⟨true, cupCommitPos ⟨true, 1, none, none, none, 0.4, none⟩
            (⟨0.5, 0.8, 0.25⟩ : V3).y (vadd ⟨2, 0, 1⟩ off), some off⟩,
         some (cupCommitPos ⟨true, 1, none, none, none, 0.4, none⟩
            (⟨0.5, 0.8, 0.25⟩ : V3).y (vadd ⟨2, 0, 1⟩ off))))) := by
  have hmiss : computePlanePoint ⟨true, 1, none, none, none, 0.4, none⟩
      ⟨0, 1, 0⟩ ⟨1, 0, 0⟩ = none := by
    norm_num [computePlanePoint, cupDragPlane, intersectPlane, rayDistanceToPlane, vdot]
  have hhit : computePlanePoint ⟨true, 1, none, none, none, 0.4, none⟩
      ⟨2, 1, 1⟩ ⟨0, -1, 0⟩ = some ⟨2, 0, 1⟩ := by
    norm_num [computePlanePoint, cupDragPlane, intersectPlane, rayDistanceToPlane,
      vdot, vadd, vsmul, V3.mk.injEq]
  exact ⟨⟨rfl, hmiss, hhit⟩,
    stale_drag_offset ⟨true, 1, none, none, none, 0.4, none⟩ ⟨0, 1, 0⟩ ⟨1, 0, 0⟩
      ⟨2, 1, 1⟩ ⟨0, -1, 0⟩ ⟨2, 0, 1⟩ ⟨false, ⟨0.5, 0.8, 0.25⟩, some ⟨9, 9, 9⟩⟩
      ⟨0.5, 0.8, 0.25⟩ rfl hmiss hhit⟩

/-- C9. Draggable gate: with draggable false, the pointer-down handlers of
cup, desk, lamp group and lamp head all return without starting a session,
mutating any state, or firing the drag callback; the cup move handler is a
no-op when no session was ever started; and the drag useEffect of each object
returns before installing the global pointermove/pointerup listeners. -/
theorem draggable_gate (sc em : ℝ) (dc : Option (ℝ × ℝ)) (dty : Option ℝ)
    (dsz : Option (ℝ × ℝ)) (dpy : Option ℝ) (o d : V3) (st : CupState)
    (dst : DeskState) (lst : LampState) (hst : HeadDragState) (pose : LampPose) (nx ny : ℝ) :
    cupPointerDown ⟨false, sc, dc, dty, dsz, em, dpy⟩ o d st = (st, none) ∧
    cupDragListeners ⟨false, sc, dc, dty, dsz, em, dpy⟩ = false ∧
    cupHandleMove ⟨false, sc, dc, dty, dsz, em, dpy⟩ o d ⟨false, st.pos, st.dragOffset⟩ =
      (⟨false, st.pos, st.dragOffset⟩, none) ∧
    deskPointerDown false o d dst = (dst, none) ∧
    deskDragListeners false = false ∧
    lampPointerDown false o d lst = (lst, none) ∧
    lampDragListeners false = false ∧
    lampHeadPointerDown false nx ny pose hst = (hst, none) := by
  refine ⟨?_, rfl, ?_, rfl, rfl, rfl, rfl, rfl⟩
  · unfold cupPointerDown
    simp
  · unfold cupHandleMove
    simp

/-- The polyline minimum over at least one segment exists and is bounded by
the first segment's distance. -/
lemma minDistToPolyline_cons_le (p a b : V3) (rest : List V3) :
    ∃ m, minDistToPolyline p (a :: b :: rest) = some m ∧ m ≤ distPointToSegment p a b := by
  unfold minDistToPolyline
  cases hrec : minDistToPolyline p (b :: rest) with
  | none => exact ⟨distPointToSegment p a b, rfl, le_refl _⟩
  | some m' => exact ⟨min (distPointToSegment p a b) m', rfl, min_le_left _ _⟩

/-- C2. Lamp head collision gate: for any pointer-move of a head drag, if the
candidate pose (pointer delta mapped to clamped arm yaw and head pitch) puts
the bulb's world position within stemRadius + 0.07 - 0.01 of any sampled
segment of the body tube under the candidate yaw, the handler reverts both
rotations to the pose before the event; otherwise it commits both candidate
angles. -/
theorem lamp_collision_gate (L : LampParams) (curve : ℝ → V3) (start : StartHead)
    (nx ny : ℝ) (old : LampPose) :
    (lampColliding L curve (lampHeadCandidate start nx ny) →
      lampHeadMove L curve start nx ny old = old) ∧
    (¬ lampColliding L curve (lampHeadCandidate start nx ny) →
      lampHeadMove L curve start nx ny old = lampHeadCandidate start nx ny) := by
  constructor <;> intro h <;>
    unfold lampColliding lampHeadCandidate lampBulbWorld stemSamples at h <;>
    unfold lampHeadMove
  · rw [if_pos h]
  · rw [if_neg h]
    rfl

/-- Witness for C2: a degenerate all-zero lamp whose bulb sits on the body
curve, so the candidate identity pose collides and the old pose is kept. -/
theorem lamp_collision_gate_witness :
    lampColliding ⟨0, 0, 0.1, 0, 0, ⟨0, 0, 0⟩, 0⟩ (fun _ => ⟨0, 0, 0⟩)
      (lampHeadCandidate ⟨0, 0, 0, 0⟩ 0 0) ∧
    lampHeadMove ⟨0, 0, 0.1, 0, 0, ⟨0, 0, 0⟩, 0⟩ (fun _ => ⟨0, 0, 0⟩) ⟨0, 0, 0, 0⟩ 0 0
      ⟨0.3, 0.2⟩ = ⟨0.3, 0.2⟩ := by
  have hpi := Real.pi_pos
  have hcand : lampHeadCandidate (⟨0, 0, 0, 0⟩ : StartHead) 0 0 = ⟨0, 0⟩ := by
    unfold lampHeadCandidate
    dsimp only
    norm_num
    constructor
    · rw [max_eq_right (by nlinarith), min_eq_right (by nlinarith)]
    · rw [max_eq_right (by nlinarith), min_eq_right (by nlinarith)]
  have hbulb : lampBulbWorld ⟨0, 0, 0.1, 0, 0, ⟨0, 0, 0⟩, 0⟩ ⟨0, 0⟩ = ⟨0, 0, 0⟩ := by
    norm_num [lampBulbWorld, headToWorld, armToWorld, rotX, rotY, vadd, V3.mk.injEq]
  have harm : armToWorld ⟨0, 0, 0.1, 0, 0, ⟨0, 0, 0⟩, 0⟩ 0 (⟨0, 0, 0⟩ : V3) = ⟨0, 0, 0⟩ := by
    norm_num [armToWorld, rotY, vadd, V3.mk.injEq]
  have hrange : List.range 11 = 0 :: 1 :: [2, 3, 4, 5, 6, 7, 8, 9, 10] := by decide
  have hsamp : ∃ rest, stemSamples ⟨0, 0, 0.1, 0, 0, ⟨0, 0, 0⟩, 0⟩ (fun _ => ⟨0, 0, 0⟩) 0 =
      (⟨0, 0, 0⟩ : V3) :: (⟨0, 0, 0⟩ : V3) :: rest := by
    unfold stemSamples
    rw [hrange]
    simp only [List.map_cons]
    exact ⟨_, by rw [harm]⟩
  obtain ⟨rest, hsamp⟩ := hsamp
  have hdist : distPointToSegment ⟨0, 0, 0⟩ ⟨0, 0, 0⟩ ⟨0, 0, 0⟩ = 0 := by
    norm_num [distPointToSegment, vsub, vdot, vadd, vsmul, vdist, Real.sqrt_zero]
  have hcol : lampColliding ⟨0, 0, 0.1, 0, 0, ⟨0, 0, 0⟩, 0⟩ (fun _ => ⟨0, 0, 0⟩)
      (lampHeadCandidate ⟨0, 0, 0, 0⟩ 0 0) := by
    rw [hcand]
    unfold lampColliding
    rw [hbulb, hsamp]
    obtain ⟨m, hm, hle⟩ := minDistToPolyline_cons_le ⟨0, 0, 0⟩ ⟨0, 0, 0⟩ ⟨0, 0, 0⟩ rest
    rw [hm]
    rw [hdist] at hle
    dsimp only
    linarith
  refine ⟨hcol, ?_⟩
  have := (lamp_collision_gate ⟨0, 0, 0.1, 0, 0, ⟨0, 0, 0⟩, 0⟩ (fun _ => ⟨0, 0, 0⟩)
    ⟨0, 0, 0, 0⟩ 0 0 ⟨0.3, 0.2⟩).1 hcol
  exact this

/-- C8. Steam column placement and desynchronized time rates: column i sits
at angle 2 pi i / columns and horizontal radius spread; every frame writes
uTime_i = elapsed * speed * (1 + 0.07 i); and for a running animation
(speed nonzero) distinct columns get distinct rates. -/
theorem steam_columns_placement (columns : ℕ) (spread speed t : ℝ) (i j : ℕ)
    (hi : i < columns) (_hj : j < columns) (hij : i ≠ j) :
    (steamOffsets columns spread).getD i (0, 0) =
      (Real.cos (2 * Real.pi * (i : ℝ) / (columns : ℝ)) * spread,
       Real.sin (2 * Real.pi * (i : ℝ) / (columns : ℝ)) * spread) ∧
    (steamUniforms columns speed t).getD i 0 = t * speed * (1 + (i : ℝ) * 0.07) ∧
    (speed ≠ 0 → speed * (1 + (i : ℝ) * 0.07) ≠ speed * (1 + (j : ℝ) * 0.07)) := by
  have hlen1 : i < (steamOffsets columns spread).length := by simp [steamOffsets, hi]
  have hlen2 : i < (steamUniforms columns speed t).length := by simp [steamUniforms, hi]
  refine ⟨?_, ?_, ?_⟩
  · rw [List.getD_eq_getElem _ _ hlen1]
    simp only [steamOffsets, List.getElem_map, List.getElem_range]
    have harg : (i : ℝ) / (columns : ℝ) * Real.pi * 2 =
        2 * Real.pi * (i : ℝ) / (columns : ℝ) := by ring
    rw [harg]
  · rw [List.getD_eq_getElem _ _ hlen2]
    simp only [steamUniforms, List.getElem_map, List.getElem_range]
    norm_num
  · intro hs heq
    apply hij
    have h2 : (1 : ℝ) + (i : ℝ) * 0.07 = 1 + (j : ℝ) * 0.07 := mul_left_cancel₀ hs heq
    have h3 : (i : ℝ) = (j : ℝ) := by linarith
    exact_mod_cast h3

/-- Witness for C8 at the defaults columns = 3, spread = 0.18, speed = 0.35,
elapsed = 2, columns 0 and 1. -/
theorem steam_columns_placement_witness :
    ((0 : ℕ) < 3 ∧ (1 : ℕ) < 3 ∧ (0 : ℕ) ≠ 1) ∧
    ((steamOffsets 3 0.18).getD 0 (0, 0) =
      (Real.cos (2 * Real.pi * ((0 : ℕ) : ℝ) / ((3 : ℕ) : ℝ)) * 0.18,
       Real.sin (2 * Real.pi * ((0 : ℕ) : ℝ) / ((3 : ℕ) : ℝ)) * 0.18) ∧
     (steamUniforms 3 0.35 2).getD 0 0 = 2 * 0.35 * (1 + ((0 : ℕ) : ℝ) * 0.07) ∧
     ((0.35 : ℝ) ≠ 0 →
       (0.35 : ℝ) * (1 + ((0 : ℕ) : ℝ) * 0.07) ≠ 0.35 * (1 + ((1 : ℕ) : ℝ) * 0.07))) :=
  ⟨⟨by norm_num, by norm_num, by norm_num⟩,
   steam_columns_placement 3 0.18 0.35 2 0 1 (by norm_num) (by norm_num) (by norm_num)⟩

end Theorems

end CupCoffee
